import Mathlib

/-!
Shallow embedding of the Horror Oracle backend (`horror.py`).

Network calls are modelled by passing the upstream JSON payloads (already
decoded) as explicit arguments: a TMDb movie object becomes a `TMDbMovie`,
the genre id→name table becomes an association list, the per-movie
external-ids lookup becomes a function `Nat → String`, and `random.shuffle`
becomes an explicit list-permuting argument.  Missing JSON string fields are
modelled as `""` (both are falsy in the Python code), missing `genre_ids`
as `[]`, and a JSON key that may be absent from a produced record as an
`Option` field.
-/

namespace HorrorOracle

/-- One movie object as returned by TMDb list endpoints (search, recommendations,
similar, discover).  Fields the code reads: `id`, `title`, `release_date`,
`overview`, `poster_path`, `genre_ids`. -/
structure TMDbMovie where
  id : Nat
  title : String
  release_date : String
  overview : String
  poster_path : String
  genre_ids : List Nat
deriving DecidableEq, Repr

/-- One entry of the `/recent-releases` response (`get_recent_horror_releases`). -/
structure ReleaseEntry where
  title : String
  release_date : String
  poster : Option String
deriving DecidableEq, Repr

/-- One recommendation record built by `get_recommendations_for_movie`.
`imdb_id = none` models the Python dict having no `"imdb_id"` key at all
(the popularity-fallback stage), while `imdb_id = some s` models the key
being present with string value `s` (the primary stage). -/
structure Recommendation where
  title : String
  year : String
  plot : String
  poster_url : Option String
  genres : List String
  imdb_id : Option String
  amazon_link : String
  timestamp : String
deriving DecidableEq, Repr

/-- The decoded OMDb payload as read by `get_movie_details`; every field is
read with `.get`, hence `Option`.  Lean field names are lower-case versions
of the JSON keys (`Response`, `Title`, `Year`, `Director`, `Plot`, `Poster`,
`imdbID`, `Genre`). -/
structure OmdbPayload where
  response : Option String
  title : Option String
  year : Option String
  director : Option String
  plot : Option String
  poster : Option String
  imdbID : Option String
  genre : Option String
deriving DecidableEq, Repr

/-- The record returned by `get_movie_details`; `Option` fields model keys
whose value may be absent/`None`; `director = none` models the `"director"`
key being absent from the returned dict (the TMDb path builds no such key). -/
structure MovieRecord where
  title : Option String
  year : Option String
  director : Option String
  plot : Option String
  poster : Option String
  imdb_id : Option String
  genres : List String
deriving DecidableEq, Repr

/-- Python slice `l[:n]` for an `int` bound `n` (negative bounds count from
the end, clamped at zero). -/
def pyTake (n : Int) (l : List α) : List α :=
  if 0 ≤ n then l.take n.toNat else l.take (l.length - (-n).toNat)

/-- `{g['id']: g['name'] for g in genres}.get(gid, "Unknown")`: dict
comprehension (later duplicate ids win) followed by lookup with default. -/
def resolveGenre (tbl : List (Nat × String)) (gid : Nat) : String :=
  ((tbl.reverse.find? (fun p => p.1 == gid)).map (fun p => p.2)).getD "Unknown"

/-- `[genre_map.get(g_id, "Unknown") for g_id in genre_ids]`. -/
def resolveGenres (tbl : List (Nat × String)) (gids : List Nat) : List String :=
  gids.map (resolveGenre tbl)

/-- Python `str.split(sep)` for a non-empty separator, with explicit fuel so
that it evaluates by kernel reduction (`fuel` starts at the string length). -/
def pySplitFuel (sep : List Char) : Nat → List Char → List (List Char)
  | _, [] => [[]]
  | 0, s => [s]
  | fuel + 1, c :: rest =>
    if sep.isPrefixOf (c :: rest) then
      [] :: pySplitFuel sep fuel (List.drop (sep.length - 1) rest)
    else
      match pySplitFuel sep fuel rest with
      | [] => [[c]]
      | t :: ts => (c :: t) :: ts

/-- Python `str.split(sep)` for a non-empty separator string. -/
def pySplit (sep s : String) : List String :=
  (pySplitFuel sep.data s.data.length s.data).map (fun w => String.mk w)

/-- `movie.get("release_date").split("-")[0] if movie.get("release_date") else "N/A"`. -/
def yearOf (m : TMDbMovie) : String :=
  if m.release_date = "" then "N/A" else (pySplit "-" m.release_date).headD ""

/-- `f"https://image.tmdb.org/t/p/w500{poster_path}" if poster_path else None`. -/
def posterOf (m : TMDbMovie) : Option String :=
  if m.poster_path = "" then none else some ("https://image.tmdb.org/t/p/w500" ++ m.poster_path)

/-- UTF-8 bytes of a character (as used by `urllib.parse.quote`). -/
def utf8Bytes (c : Char) : List Nat :=
  let n := c.toNat
  if n < 128 then [n]
  else if n < 2048 then [192 + n / 64, 128 + n % 64]
  else if n < 65536 then [224 + n / 4096, 128 + (n / 64) % 64, 128 + n % 64]
  else [240 + n / 262144, 128 + (n / 4096) % 64, 128 + (n / 64) % 64, 128 + n % 64]

/-- Upper-case hexadecimal digit. -/
def hexDigitChar (n : Nat) : Char :=
  if n < 10 then Char.ofNat (48 + n) else Char.ofNat (55 + n % 16)

/-- Percent-encoding of one byte. -/
def percentByte (b : Nat) : List Char :=
  ['%', hexDigitChar (b / 16), hexDigitChar (b % 16)]

/-- Characters `urllib.parse.quote` leaves untouched (default `safe='/'`). -/
def quoteSafe (c : Char) : Bool :=
  c.isAlpha || c.isDigit || c == '_' || c == '.' || c == '-' || c == '~' || c == '/'

/-- `urllib.parse.quote` on a character list. -/
def pyQuote (s : List Char) : List Char :=
  List.flatten (s.map (fun c =>
    if quoteSafe c then [c] else List.flatten ((utf8Bytes c).map percentByte)))

/-- `urllib.parse.quote` on a string. -/
def pyQuoteStr (s : String) : String := ⟨pyQuote s.data⟩

/-- `f"https://www.amazon.com/s?k=\x7bquote(title)\x7d+movie"`. -/
def amazonLink (title : String) : String :=
  "https://www.amazon.com/s?k=" ++ pyQuoteStr title ++ "+movie"

/-- `get_recent_horror_releases` (lines 117-139): the upstream discovery
response's `results` list is truncated to `limit` and mapped to
`ReleaseEntry` records; no date arithmetic happens locally (the 30-day
lower bound only appears inside the request URL). -/
def get_recent_horror_releases (limit : Int) (results : List TMDbMovie) : List ReleaseEntry :=
  (pyTake limit results).map (fun m => ⟨m.title, m.release_date, posterOf m⟩)

/-- Lexicographic order on character lists (how ISO date strings compare). -/
def lexLtb : List Char → List Char → Bool
  | [], [] => false
  | [], _ :: _ => true
  | _ :: _, [] => false
  | a :: as, b :: bs => if a < b then true else if b < a then false else lexLtb as bs

/-- Spec-side predicate: ISO date string `d` lies in the trailing 30-day
window `[monthAgo, today]` (ISO dates compare correctly lexicographically). -/
def isoWithinWindow (monthAgo today d : String) : Prop :=
  lexLtb d.data monthAgo.data = false ∧ lexLtb today.data d.data = false

/-- `get_movie_details` (lines 66-115): OMDb first; on OMDb miss, the first
TMDb search result with genre ids resolved through the genre table; the
returned dict then has no `"director"` key and `imdb_id` is `None`. -/
def get_movie_details (omdb : OmdbPayload) (tmdbResults : List TMDbMovie)
    (tbl : List (Nat × String)) : Option MovieRecord :=
  if omdb.response = some "True" then
    some { title := omdb.title, year := omdb.year, director := omdb.director,
           plot := omdb.plot, poster := omdb.poster, imdb_id := omdb.imdbID,
           genres := pySplit ", " (omdb.genre.getD "") }
  else
    match tmdbResults with
    | [] => none
    | m :: _ =>
      some { title := some m.title,
             year := some (yearOf m),
             director := none,
             plot := some m.overview,
             poster := posterOf m,
             imdb_id := none,
             genres := if m.genre_ids.isEmpty then [] else resolveGenres tbl m.genre_ids }

/-- The record the primary candidate stage appends (lines 193-202):
`imdb_id` key present (value from the per-movie external-ids lookup `ext`,
possibly `""`). -/
def mkPrimaryRec (tbl : List (Nat × String)) (ext : Nat → String) (ts : String)
    (m : TMDbMovie) : Recommendation :=
  { title := m.title, year := yearOf m, plot := m.overview, poster_url := posterOf m,
    genres := resolveGenres tbl m.genre_ids, imdb_id := some (ext m.id),
    amazon_link := amazonLink m.title, timestamp := ts }

/-- The record the popularity-fallback stage appends (lines 224-232): no
`imdb_id` key. -/
def mkFallbackRec (tbl : List (Nat × String)) (ts : String) (m : TMDbMovie) : Recommendation :=
  { title := m.title, year := yearOf m, plot := m.overview, poster_url := posterOf m,
    genres := if m.genre_ids.isEmpty then [] else resolveGenres tbl m.genre_ids,
    imdb_id := none, amazon_link := amazonLink m.title, timestamp := ts }

/-- The primary candidate loop (lines 180-206): for each candidate, if it has
a non-empty `genre_ids` list and is tagged Horror or has at most 2 genres,
append it; break once 5 are collected. -/
def primaryLoop (tbl : List (Nat × String)) (ext : Nat → String) (ts : String) :
    List TMDbMovie → List Recommendation → List Recommendation
  | [], acc => acc
  | m :: rest, acc =>
    if m.genre_ids.isEmpty then primaryLoop tbl ext ts rest acc
    else if "Horror" ∈ resolveGenres tbl m.genre_ids ∨ (resolveGenres tbl m.genre_ids).length ≤ 2 then
      if 5 ≤ (acc ++ [mkPrimaryRec tbl ext ts m]).length then acc ++ [mkPrimaryRec tbl ext ts m]
      else primaryLoop tbl ext ts rest (acc ++ [mkPrimaryRec tbl ext ts m])
    else primaryLoop tbl ext ts rest acc

/-- The keep-condition of the primary loop, as one boolean: non-empty
`genre_ids` and (tagged Horror or at most 2 genres). -/
def primKeep (tbl : List (Nat × String)) (m : TMDbMovie) : Bool :=
  !m.genre_ids.isEmpty &&
    (decide ("Horror" ∈ resolveGenres tbl m.genre_ids) ||
     decide ((resolveGenres tbl m.genre_ids).length ≤ 2))

/-- The popularity-fallback loop (lines 215-236): skip candidates whose title
matches one already collected, otherwise append; break once 5 total. -/
def fallbackLoop (tbl : List (Nat × String)) (ts : String) :
    List TMDbMovie → List Recommendation → List Recommendation
  | [], acc => acc
  | m :: rest, acc =>
    if acc.any (fun r => r.title == m.title) then fallbackLoop tbl ts rest acc
    else if 5 ≤ (acc ++ [mkFallbackRec tbl ts m]).length then acc ++ [mkFallbackRec tbl ts m]
    else fallbackLoop tbl ts rest (acc ++ [mkFallbackRec tbl ts m])

/-- Line 165's branch condition `not rec_data.get("results") or len(...) < 3`:
whether the `similar` endpoint is queried at all. -/
def similarFetched (recResults : List TMDbMovie) : Bool :=
  recResults.isEmpty || decide (recResults.length < 3)

/-- Lines 159-170: the candidate pool is the similar list exactly when the
similar endpoint was queried and returned a non-empty list; otherwise the
recommendations list. -/
def recPool (recResults similarResults : List TMDbMovie) : List TMDbMovie :=
  if similarFetched recResults then
    (if similarResults.isEmpty then recResults else similarResults)
  else recResults

/-- The full collection phase of `get_recommendations_for_movie` before the
shuffle: primary loop over the first 10 pool candidates, then, if fewer than
3 were collected, the fallback loop over the first 5 popular results. -/
def gatherCollected (recResults similarResults : List TMDbMovie) (tbl : List (Nat × String))
    (ext : Nat → String) (popularResults : List TMDbMovie) (ts : String) : List Recommendation :=
  let primary := primaryLoop tbl ext ts ((recPool recResults similarResults).take 10) []
  if primary.length < 3 then fallbackLoop tbl ts (popularResults.take 5) primary else primary

/-- `get_recommendations_for_movie` (lines 141-241).  `sh` stands for
`random.shuffle` (the caller instantiates it with any permutation);
`searchResults` is the title-search response (empty → early `return []`);
the final list is truncated to 5. -/
def get_recommendations_for_movie (sh : List Recommendation → List Recommendation)
    (searchResults recResults similarResults : List TMDbMovie) (tbl : List (Nat × String))
    (ext : Nat → String) (popularResults : List TMDbMovie) (ts : String) : List Recommendation :=
  if searchResults.isEmpty then []
  else (sh (gatherCollected recResults similarResults tbl ext popularResults ts)).take 5

/-- `c.isWhitespace`, standing for Python's whitespace test. -/
def isSpace (c : Char) : Bool := c.isWhitespace

/-- Python `str.strip()` on a character list. -/
def pyStripChars (s : List Char) : List Char :=
  ((s.dropWhile isSpace).reverse.dropWhile isSpace).reverse

/-- Python `str.strip()`. -/
def pyStrip (s : String) : String := ⟨pyStripChars s.data⟩

/-- `generate_interesting_fact` (lines 251-273): fixed message when no
language-model client is configured; otherwise the (stripped) model answer,
with a fixed fallback when the call raises. -/
def generate_interesting_fact (clientConfigured : Bool) (_movieTitle : String)
    (callResult : Except String String) : String :=
  if !clientConfigured then
    "The Oracle knows many secrets about this film, but cannot reveal them right now..."
  else
    match callResult with
    | Except.ok content => pyStrip content
    | Except.error _ =>
      "The Oracle sees dark secrets about this film, but they are shrouded in mystery..."

/-- Helper for Python `str.split()`: accumulate the current word (reversed). -/
def wordsAux : List Char → List Char → List (List Char)
  | [], cur => if cur.isEmpty then [] else [cur.reverse]
  | c :: rest, cur =>
    if isSpace c then
      (if cur.isEmpty then wordsAux rest [] else cur.reverse :: wordsAux rest [])
    else wordsAux rest (c :: cur)

/-- Python `str.split()` (split on whitespace runs, no empty words). -/
def pyWords (s : List Char) : List (List Char) := wordsAux s []

/-- Python `str.lower()`. -/
def pyLower (s : List Char) : List Char := s.map Char.toLower

/-- Python `needle in hay` on strings. -/
def hasSubstr (needle : List Char) : List Char → Bool
  | [] => needle.isEmpty
  | c :: rest => needle.isPrefixOf (c :: rest) || hasSubstr needle rest

/-- The keyword list of line 306. -/
def movieKeywords : List (List Char) :=
  ["movie".data, "film".data, "watch".data, "see".data, "about".data]

/-- The leading phrases stripped at lines 309-312, in source order. -/
def titleLeadIns : List (List Char) :=
  ["tell me about".data, "what is".data, "do you know".data, "have you seen".data]

/-- Line 306's condition: fewer than 5 words, or some keyword occurs in the
lowercased query. -/
def looksLikeMovieQuery (q : List Char) : Bool :=
  decide ((pyWords q).length < 5) || movieKeywords.any (fun k => hasSubstr k (pyLower q))

/-- Lines 308-312: strip the first leading phrase that matches the lowercased
query (the loop breaks at the first hit), else keep the query itself. -/
def extractPotentialTitle (q : List Char) : List Char :=
  match titleLeadIns.find? (fun p => p.isPrefixOf (pyLower q)) with
  | some p => pyStripChars (q.drop p.length)
  | none => q

/-- Lines 301-314 of `ask_oracle`, for a non-empty query: `some title` when a
movie-metadata lookup is attempted with candidate `title`, `none` when the
query goes straight to the general responder. -/
def askOracleLookup (q : List Char) : Option (List Char) :=
  if looksLikeMovieQuery q then some (extractPotentialTitle q) else none

/-! ### Helper lemmas -/

theorem primKeep_true_iff (tbl : List (Nat × String)) (m : TMDbMovie) :
    primKeep tbl m = true ↔
      m.genre_ids.isEmpty = false ∧
        ("Horror" ∈ resolveGenres tbl m.genre_ids ∨
          (resolveGenres tbl m.genre_ids).length ≤ 2) := by
  simp [primKeep]

/-- Closed form of the primary loop: starting below the cap, it appends the
kept candidates in order, truncated at 5 total. -/
theorem primaryLoop_eq (tbl : List (Nat × String)) (ext : Nat → String) (ts : String)
    (ms : List TMDbMovie) : ∀ acc : List Recommendation, acc.length < 5 →
    primaryLoop tbl ext ts ms acc =
      acc ++ (((ms.filter (primKeep tbl)).take (5 - acc.length)).map (mkPrimaryRec tbl ext ts)) := by
  induction ms with
  | nil => intro acc _; simp [primaryLoop]
  | cons m rest ih =>
    intro acc hacc
    by_cases h1 : m.genre_ids.isEmpty = true
    · have hk : primKeep tbl m = false := by simp [primKeep, h1]
      rw [primaryLoop, if_pos h1, List.filter_cons_of_neg (by simp [hk]), ih acc hacc]
    · by_cases h2 : "Horror" ∈ resolveGenres tbl m.genre_ids ∨
          (resolveGenres tbl m.genre_ids).length ≤ 2
      · have hk : primKeep tbl m = true := by
          rw [primKeep_true_iff]
          exact ⟨by simpa using h1, h2⟩
        rw [primaryLoop, if_neg h1, if_pos h2]
        by_cases h3 : 5 ≤ (acc ++ [mkPrimaryRec tbl ext ts m]).length
        · have h4 : acc.length = 4 := by
            simp only [List.length_append, List.length_cons, List.length_nil] at h3
            omega
          have h5 : 5 - acc.length = 1 := by omega
          rw [if_pos h3, List.filter_cons_of_pos (by simp [hk]), h5, List.take_succ_cons,
            List.take_zero, List.map_cons, List.map_nil]
        · have h4 : (acc ++ [mkPrimaryRec tbl ext ts m]).length < 5 := by omega
          rw [if_neg h3, ih _ h4, List.filter_cons_of_pos (by simp [hk])]
          have h5 : 5 - acc.length = (5 - (acc ++ [mkPrimaryRec tbl ext ts m]).length) + 1 := by
            simp only [List.length_append, List.length_cons, List.length_nil]
            simp only [List.length_append, List.length_cons, List.length_nil] at h3
            omega
          rw [h5, List.take_succ_cons, List.map_cons]
          simp
      · have hk : primKeep tbl m = false := by
          rw [Bool.eq_false_iff]
          intro hc
          exact h2 ((primKeep_true_iff tbl m).mp hc).2
        rw [primaryLoop, if_neg h1, if_neg h2, List.filter_cons_of_neg (by simp [hk]), ih acc hacc]

/-- The primary stage, started empty, is exactly: keep-filter, cap at 5, map
to records. -/
theorem primaryLoop_closed (tbl : List (Nat × String)) (ext : Nat → String) (ts : String)
    (pool : List TMDbMovie) :
    primaryLoop tbl ext ts pool [] =
      ((pool.filter (primKeep tbl)).take 5).map (mkPrimaryRec tbl ext ts) := by
  simpa using primaryLoop_eq tbl ext ts pool [] (by simp)

theorem primaryLoop_length_le (tbl : List (Nat × String)) (ext : Nat → String) (ts : String)
    (pool : List TMDbMovie) : (primaryLoop tbl ext ts pool []).length ≤ 5 := by
  rw [primaryLoop_closed]
  simp only [List.length_map]
  exact List.length_take_le 5 _

/-- Everything the fallback loop guarantees about the entries it appends:
they extend the accumulator, stem from the candidate list, carry no
`imdb_id` key, and their titles are fresh (mutually distinct and distinct
from every accumulated title). -/
theorem fallbackLoop_spec (tbl : List (Nat × String)) (ts : String) :
    ∀ (ms : List TMDbMovie) (acc : List Recommendation),
    ∃ new, fallbackLoop tbl ts ms acc = acc ++ new ∧
      (∀ r ∈ new, ∃ m ∈ ms, r = mkFallbackRec tbl ts m) ∧
      (∀ r ∈ new, r.imdb_id = none) ∧
      (new.map Recommendation.title).Nodup ∧
      (∀ r ∈ new, ∀ a ∈ acc, r.title ≠ a.title) := by
  intro ms
  induction ms with
  | nil => intro acc; exact ⟨[], by simp [fallbackLoop]⟩
  | cons m rest ih =>
    intro acc
    by_cases hdup : acc.any (fun r => r.title == m.title) = true
    · obtain ⟨new, heq, hsrc, himdb, hnd, hfresh⟩ := ih acc
      refine ⟨new, ?_, ?_, himdb, hnd, hfresh⟩
      · rw [fallbackLoop, if_pos hdup, heq]
      · intro r hr
        obtain ⟨m', hm', hr'⟩ := hsrc r hr
        exact ⟨m', List.mem_cons_of_mem _ hm', hr'⟩
    · have hfresh0 : ∀ a ∈ acc, (mkFallbackRec tbl ts m).title ≠ a.title := by
        intro a ha
        have := List.any_eq_false.mp (Bool.eq_false_iff.mpr hdup) a ha
        simp only [beq_iff_eq] at this
        show m.title ≠ a.title
        exact fun hc => this hc.symm
      by_cases hbrk : 5 ≤ (acc ++ [mkFallbackRec tbl ts m]).length
      · refine ⟨[mkFallbackRec tbl ts m], ?_, ?_, ?_, ?_, ?_⟩
        · rw [fallbackLoop, if_neg hdup, if_pos hbrk]
        · intro r hr
          rw [List.mem_singleton] at hr
          exact ⟨m, List.mem_cons_self _ _, hr⟩
        · intro r hr
          rw [List.mem_singleton] at hr
          subst hr
          rfl
        · simp
        · intro r hr
          rw [List.mem_singleton] at hr
          subst hr
          exact hfresh0
      · obtain ⟨new, heq, hsrc, himdb, hnd, hfresh⟩ := ih (acc ++ [mkFallbackRec tbl ts m])
        refine ⟨mkFallbackRec tbl ts m :: new, ?_, ?_, ?_, ?_, ?_⟩
        · rw [fallbackLoop, if_neg hdup, if_neg hbrk, heq]
          simp
        · intro r hr
          rcases List.mem_cons.mp hr with hr | hr
          · exact ⟨m, List.mem_cons_self _ _, hr⟩
          · obtain ⟨m', hm', hr'⟩ := hsrc r hr
            exact ⟨m', List.mem_cons_of_mem _ hm', hr'⟩
        · intro r hr
          rcases List.mem_cons.mp hr with hr | hr
          · subst hr; rfl
          · exact himdb r hr
        · rw [List.map_cons, List.nodup_cons]
          refine ⟨?_, hnd⟩
          intro hc
          obtain ⟨r, hr, hrt⟩ := List.mem_map.mp hc
          exact hfresh r hr (mkFallbackRec tbl ts m) (by simp) hrt
        · intro r hr a ha
          rcases List.mem_cons.mp hr with hr | hr
          · subst hr; exact hfresh0 a ha
          · exact hfresh r hr a (by simp [ha])

/-- Below the cap, the fallback loop keeps the total at or below 5. -/
theorem fallbackLoop_length_le (tbl : List (Nat × String)) (ts : String) :
    ∀ (ms : List TMDbMovie) (acc : List Recommendation), acc.length < 5 →
      (fallbackLoop tbl ts ms acc).length ≤ 5 := by
  intro ms
  induction ms with
  | nil => intro acc hacc; rw [fallbackLoop]; omega
  | cons m rest ih =>
    intro acc hacc
    by_cases hdup : acc.any (fun r => r.title == m.title) = true
    · rw [fallbackLoop, if_pos hdup]; exact ih acc hacc
    · by_cases hbrk : 5 ≤ (acc ++ [mkFallbackRec tbl ts m]).length
      · rw [fallbackLoop, if_neg hdup, if_pos hbrk]
        simp only [List.length_append, List.length_cons, List.length_nil]
        omega
      · rw [fallbackLoop, if_neg hdup, if_neg hbrk]
        exact ih _ (by omega)

/-- If the fallback loop ends below 5, every candidate's title is represented
in the result (it was either appended or skipped as a duplicate of an
already-present title). -/
theorem fallbackLoop_complete (tbl : List (Nat × String)) (ts : String) :
    ∀ (ms : List TMDbMovie) (acc : List Recommendation),
      (fallbackLoop tbl ts ms acc).length < 5 →
      ∀ m ∈ ms, ∃ r ∈ fallbackLoop tbl ts ms acc, r.title = m.title := by
  intro ms
  induction ms with
  | nil => intro acc _ m hm; exact absurd hm (List.not_mem_nil m)
  | cons m rest ih =>
    intro acc hlen m' hm'
    by_cases hdup : acc.any (fun r => r.title == m.title) = true
    · rw [fallbackLoop, if_pos hdup] at hlen ⊢
      rcases List.mem_cons.mp hm' with hm' | hm'
      · subst hm'
        obtain ⟨r, hr, hrt⟩ := List.any_eq_true.mp hdup
        obtain ⟨new, heq, -, -, -, -⟩ := fallbackLoop_spec tbl ts rest acc
        exact ⟨r, by rw [heq]; exact List.mem_append_left _ hr, beq_iff_eq.mp hrt⟩
      · exact ih acc hlen m' hm'
    · by_cases hbrk : 5 ≤ (acc ++ [mkFallbackRec tbl ts m]).length
      · rw [fallbackLoop, if_neg hdup, if_pos hbrk] at hlen
        simp only [List.length_append, List.length_cons, List.length_nil] at hlen hbrk
        omega
      · rw [fallbackLoop, if_neg hdup, if_neg hbrk] at hlen ⊢
        rcases List.mem_cons.mp hm' with hm' | hm'
        · obtain ⟨new, heq, -, -, -, -⟩ :=
            fallbackLoop_spec tbl ts rest (acc ++ [mkFallbackRec tbl ts m])
          refine ⟨mkFallbackRec tbl ts m, ?_, by simp [hm', mkFallbackRec]⟩
          rw [heq]
          exact List.mem_append_left _ (List.mem_append_right _ (by simp))
        · exact ih _ hlen m' hm'

/-- The collection phase never holds more than 5 records. -/
theorem gatherCollected_length_le (recResults similarResults : List TMDbMovie)
    (tbl : List (Nat × String)) (ext : Nat → String) (popularResults : List TMDbMovie)
    (ts : String) :
    (gatherCollected recResults similarResults tbl ext popularResults ts).length ≤ 5 := by
  rw [gatherCollected]
  split
  · next h => exact fallbackLoop_length_le tbl ts _ _ (by omega)
  · exact primaryLoop_length_le tbl ext ts _

/-! ### Claim theorems -/

/-- C1 counterexample: a candidate with no listed genres is NOT kept, contrary
to the claim.  The three search-pool candidates all have `genre_ids = []`
(so, per the claim, at most 2 genres and hence kept), yet the gatherer
returns the empty list — the code only reaches its keep-test inside
`if movie.get('genre_ids'):`, so genre-less candidates are skipped. -/
theorem c1_counterexample :
    get_recommendations_for_movie id [⟨0, "s", "", "", "", []⟩]
      [⟨1, "Ghost", "2020-01-01", "o", "", []⟩, ⟨1, "Ghost", "2020-01-01", "o", "", []⟩,
        ⟨1, "Ghost", "2020-01-01", "o", "", []⟩]
      [] [(27, "Horror")] (fun _ => "") [] "0" = [] ∧
    "Horror" ∉ resolveGenres [(27, "Horror")] ([] : List Nat) ∧
    (resolveGenres [(27, "Horror")] ([] : List Nat)).length ≤ 2 := by
  refine ⟨by decide, by decide, by decide⟩

/-- C1 (amended): in the primary stage over the first 10 pool candidates, an
entry is produced exactly from candidates having a NON-EMPTY genre-id list
that resolves to names containing "Horror" or numbering at most 2, subject to
collection stopping at 5; consequently every kept entry has a non-empty
genre-name list, and a candidate with no listed genres is never kept. -/
theorem c1_primary_stage_filter (tbl : List (Nat × String)) (ext : Nat → String) (ts : String)
    (pool : List TMDbMovie) :
    (∀ r ∈ primaryLoop tbl ext ts (pool.take 10) [],
        ∃ m ∈ pool.take 10, primKeep tbl m = true ∧ r = mkPrimaryRec tbl ext ts m) ∧
    ((primaryLoop tbl ext ts (pool.take 10) []).length < 5 →
        ∀ m ∈ pool.take 10, primKeep tbl m = true →
          mkPrimaryRec tbl ext ts m ∈ primaryLoop tbl ext ts (pool.take 10) []) ∧
    (∀ r ∈ primaryLoop tbl ext ts (pool.take 10) [], r.genres ≠ []) := by
  rw [primaryLoop_closed]
  refine ⟨?_, ?_, ?_⟩
  · intro r hr
    obtain ⟨m, hm, rfl⟩ := List.mem_map.mp hr
    have hm' := List.mem_filter.mp (List.take_subset _ _ hm)
    exact ⟨m, hm'.1, hm'.2, rfl⟩
  · intro hlen m hm hk
    rw [List.length_map, List.length_take] at hlen
    have hfl : ((pool.take 10).filter (primKeep tbl)).length < 5 := by omega
    rw [List.take_of_length_le (le_of_lt hfl)]
    exact List.mem_map_of_mem _ (List.mem_filter.mpr ⟨hm, hk⟩)
  · intro r hr
    obtain ⟨m, hm, rfl⟩ := List.mem_map.mp hr
    have hk := (List.mem_filter.mp (List.take_subset _ _ hm)).2
    have hne := ((primKeep_true_iff tbl m).mp hk).1
    show resolveGenres tbl m.genre_ids ≠ []
    rw [resolveGenres]
    intro hc
    rw [List.map_eq_nil_iff] at hc
    rw [hc] at hne
    simp at hne

/-- Witness for the amended C1: a Horror-tagged candidate is kept. -/
theorem c1_primary_stage_filter_witness :
    mkPrimaryRec [(27, "Horror")] (fun _ => "tt1") "7" ⟨2, "Scream", "1996-12-20", "o", "", [27]⟩ ∈
      primaryLoop [(27, "Horror")] (fun _ => "tt1") "7"
        ([⟨2, "Scream", "1996-12-20", "o", "", [27]⟩].take 10) [] :=
  (c1_primary_stage_filter [(27, "Horror")] (fun _ => "tt1") "7"
    [⟨2, "Scream", "1996-12-20", "o", "", [27]⟩]).2.1 (by decide) _ (by decide) (by decide)

/-- C2 counterexample: the release feed performs no local date filtering, so an
upstream entry dated 2099-01-01 — outside any trailing 30-day window ending
on a call date of 2026-10-12 — is returned verbatim. -/
theorem c2_counterexample :
    (⟨"X", "2099-01-01", none⟩ : ReleaseEntry) ∈
      get_recent_horror_releases 2 [⟨1, "X", "2099-01-01", "o", "", [27]⟩] ∧
    ¬ isoWithinWindow "2026-09-12" "2026-10-12" "2099-01-01" := by
  constructor
  · decide
  · simp only [isoWithinWindow]
    decide

/-- C2 (amended): for every non-negative limit the release feed returns at
most `limit` entries, each mapped verbatim from an upstream result; release
dates are not checked locally (the 30-day lower bound is only a parameter of
the upstream query and no upper bound is applied at all). -/
theorem c2_release_feed_truncates (limit : Int) (results : List TMDbMovie) (hl : 0 ≤ limit) :
    (get_recent_horror_releases limit results).length ≤ limit.toNat ∧
    ∀ e ∈ get_recent_horror_releases limit results,
      ∃ m ∈ results, e = ⟨m.title, m.release_date, posterOf m⟩ := by
  constructor
  · simp only [get_recent_horror_releases, pyTake, if_pos hl, List.length_map]
    exact List.length_take_le _ _
  · intro e he
    simp only [get_recent_horror_releases, pyTake, if_pos hl, List.mem_map] at he
    obtain ⟨m, hm, rfl⟩ := he
    exact ⟨m, List.take_subset _ _ hm, rfl⟩

/-- Witness for the amended C2 at `limit = 2`. -/
theorem c2_release_feed_truncates_witness :
    (get_recent_horror_releases 2 [⟨2, "Y", "2020-05-05", "o", "", [27]⟩]).length ≤ (2 : Int).toNat :=
  (c2_release_feed_truncates 2 [⟨2, "Y", "2020-05-05", "o", "", [27]⟩] (by decide)).1

/-- C3: for every shuffle function, title-search response, candidate pools,
genre table, external-id lookup and popular list, the gatherer returns at
most 5 recommendations. -/
theorem c3_at_most_five (sh : List Recommendation → List Recommendation)
    (searchResults recResults similarResults : List TMDbMovie) (tbl : List (Nat × String))
    (ext : Nat → String) (popularResults : List TMDbMovie) (ts : String) :
    (get_recommendations_for_movie sh searchResults recResults similarResults tbl ext
        popularResults ts).length ≤ 5 := by
  rw [get_recommendations_for_movie]
  split
  · simp
  · exact List.length_take_le 5 _

/-- C5: when OMDb reports no match and TMDb search returns at least one
result, the resolver maps the first result: genres come from the genre table
via `resolveGenre`, and director and external id are absent. -/
theorem c5_source_b_path (omdb : OmdbPayload) (tbl : List (Nat × String)) (m : TMDbMovie)
    (rest : List TMDbMovie) (hA : omdb.response ≠ some "True") :
    ∃ r, get_movie_details omdb (m :: rest) tbl = some r ∧
      r.director = none ∧ r.imdb_id = none ∧
      r.genres = m.genre_ids.map (resolveGenre tbl) ∧
      r.title = some m.title ∧ r.year = some (yearOf m) ∧
      r.plot = some m.overview ∧ r.poster = posterOf m := by
  rw [get_movie_details, if_neg hA]
  refine ⟨_, rfl, rfl, rfl, ?_, rfl, rfl, rfl, rfl⟩
  show (if m.genre_ids.isEmpty then [] else resolveGenres tbl m.genre_ids) =
    m.genre_ids.map (resolveGenre tbl)
  by_cases hg : m.genre_ids.isEmpty = true
  · rw [if_pos hg, List.isEmpty_iff.mp hg, List.map_nil]
  · rw [if_neg hg]
    rfl

/-- Witness for C5 at a concrete OMDb miss and TMDb hit. -/
theorem c5_source_b_path_witness :
    ∃ r, get_movie_details ⟨some "False", none, none, none, none, none, none, none⟩
        [⟨2, "Scream", "1996-12-20", "o", "/p.jpg", [27, 53]⟩] [(27, "Horror")] = some r ∧
      r.director = none ∧ r.imdb_id = none ∧
      r.genres = ([27, 53] : List Nat).map (resolveGenre [(27, "Horror")]) ∧
      r.title = some "Scream" ∧
      r.year = some (yearOf ⟨2, "Scream", "1996-12-20", "o", "/p.jpg", [27, 53]⟩) ∧
      r.plot = some "o" ∧ r.poster = posterOf ⟨2, "Scream", "1996-12-20", "o", "/p.jpg", [27, 53]⟩ :=
  c5_source_b_path ⟨some "False", none, none, none, none, none, none, none⟩ [(27, "Horror")]
    ⟨2, "Scream", "1996-12-20", "o", "/p.jpg", [27, 53]⟩ [] (by decide)

/-- C6: the similar list is fetched exactly when the recommendations list has
fewer than 3 entries; it becomes the candidate pool exactly when, having been
fetched, it is non-empty, the recommendations list remaining the pool
otherwise. -/
theorem c6_similar_replacement (recResults similarResults : List TMDbMovie) :
    (similarFetched recResults = true ↔ recResults.length < 3) ∧
    (recResults.length < 3 →
      (similarResults ≠ [] → recPool recResults similarResults = similarResults) ∧
      (similarResults = [] → recPool recResults similarResults = recResults)) ∧
    (3 ≤ recResults.length → recPool recResults similarResults = recResults) := by
  have hiff : similarFetched recResults = true ↔ recResults.length < 3 := by
    rw [similarFetched]
    simp only [Bool.or_eq_true, List.isEmpty_iff, decide_eq_true_eq]
    constructor
    · rintro (h | h)
      · rw [h]; simp
      · exact h
    · exact Or.inr
  refine ⟨hiff, ?_, ?_⟩
  · intro h3
    constructor
    · intro hne
      rw [recPool, if_pos (hiff.mpr h3), if_neg (by simpa [List.isEmpty_iff] using hne)]
    · intro he
      subst he
      rw [recPool]
      split
      · simp
      · rfl
  · intro h3
    rw [recPool, if_neg]
    intro hc
    exact absurd (hiff.mp hc) (by omega)

/-- Witness for C6: empty recommendations, non-empty similar list → the
similar list is the pool. -/
theorem c6_similar_replacement_witness :
    recPool [] [⟨9, "S", "", "", "", []⟩] = [⟨9, "S", "", "", "", []⟩] :=
  ((c6_similar_replacement [] [⟨9, "S", "", "", "", []⟩]).2.1 (by decide)).1 (by decide)

/-- C8: the fact generator never propagates an error — without a configured
client it returns a fixed in-character string, and on a failed model call it
returns a fixed in-character fallback string. -/
theorem c8_fact_never_raises (title : String) (callResult : Except String String) :
    generate_interesting_fact false title callResult =
      "The Oracle knows many secrets about this film, but cannot reveal them right now..." ∧
    ∀ e : String, generate_interesting_fact true title (Except.error e) =
      "The Oracle sees dark secrets about this film, but they are shrouded in mystery..." :=
  ⟨rfl, fun _ => rfl⟩

/-- The all-A-titles-then-B popular list used to refute C4's exhaustion claim. -/
def cxPopular : List TMDbMovie :=
  [⟨1, "A", "2020-01-01", "o", "", [27]⟩, ⟨2, "A", "2020-01-01", "o", "", [27]⟩,
   ⟨3, "A", "2020-01-01", "o", "", [27]⟩, ⟨4, "A", "2020-01-01", "o", "", [27]⟩,
   ⟨5, "A", "2020-01-01", "o", "", [27]⟩, ⟨6, "B", "2020-01-01", "o", "", [27]⟩]

/-- C4 counterexample: the fallback does NOT continue until 5 entries or the
source is exhausted.  With an empty primary stage and six popular results —
five titled "A" then one titled "B" — collection ends with a single entry
(the first "A"), below 5, even though the non-duplicate candidate "B" is
still unconsumed in the fallback source: the code only ever looks at
`popular_data["results"][:5]`. -/
theorem c4_counterexample :
    (gatherCollected [] [] [(27, "Horror")] (fun _ => "") cxPopular "0").length < 5 ∧
    ∃ m ∈ cxPopular, ∀ r ∈ gatherCollected [] [] [(27, "Horror")] (fun _ => "") cxPopular "0",
      r.title ≠ m.title := by
  constructor
  · decide
  · decide

/-- C4 (amended): the popularity-fallback stage never appends an entry whose
title exactly matches an already-collected entry's title (and the titles it
appends are pairwise distinct), and appending continues until 5 total
entries or the FIRST FIVE fallback results are exhausted: whenever the stage
ends below 5, every one of the first five popular results has its title
represented in the result. -/
theorem c4_fallback_dedup (tbl : List (Nat × String)) (ts : String)
    (popularResults : List TMDbMovie) (acc : List Recommendation) :
    (∃ new, fallbackLoop tbl ts (popularResults.take 5) acc = acc ++ new ∧
        (new.map Recommendation.title).Nodup ∧
        (∀ r ∈ new, ∀ a ∈ acc, r.title ≠ a.title)) ∧
    ((fallbackLoop tbl ts (popularResults.take 5) acc).length < 5 →
        ∀ m ∈ popularResults.take 5,
          ∃ r ∈ fallbackLoop tbl ts (popularResults.take 5) acc, r.title = m.title) := by
  constructor
  · obtain ⟨new, heq, -, -, hnd, hfresh⟩ := fallbackLoop_spec tbl ts (popularResults.take 5) acc
    exact ⟨new, heq, hnd, hfresh⟩
  · exact fallbackLoop_complete tbl ts _ acc

/-- Witness for the amended C4 at a one-candidate fallback source. -/
theorem c4_fallback_dedup_witness :
    ∃ r ∈ fallbackLoop [] "0" ([⟨6, "B", "2020-01-01", "o", "", [27]⟩].take 5) [],
      r.title = (⟨6, "B", "2020-01-01", "o", "", [27]⟩ : TMDbMovie).title :=
  (c4_fallback_dedup [] "0" [⟨6, "B", "2020-01-01", "o", "", [27]⟩] []).2 (by decide)
    ⟨6, "B", "2020-01-01", "o", "", [27]⟩ (by decide)

/-- C7: whenever the collected list holds two distinct entries (and the title
search matched), there are two shuffle permutations — two runs differing only
in random state — under which the gatherer returns different orderings of
the same entries. -/
theorem c7_shuffle_nondeterminism (searchResults recResults similarResults : List TMDbMovie)
    (tbl : List (Nat × String)) (ext : Nat → String) (popularResults : List TMDbMovie)
    (ts : String) (hs : searchResults ≠ [])
    (hdist : ∃ a ∈ gatherCollected recResults similarResults tbl ext popularResults ts,
             ∃ b ∈ gatherCollected recResults similarResults tbl ext popularResults ts, a ≠ b) :
    ∃ sh₁ sh₂ : List Recommendation → List Recommendation,
      (∀ l, (sh₁ l).Perm l) ∧ (∀ l, (sh₂ l).Perm l) ∧
      get_recommendations_for_movie sh₁ searchResults recResults similarResults tbl ext
          popularResults ts ≠
        get_recommendations_for_movie sh₂ searchResults recResults similarResults tbl ext
          popularResults ts ∧
      (get_recommendations_for_movie sh₁ searchResults recResults similarResults tbl ext
          popularResults ts).Perm
        (get_recommendations_for_movie sh₂ searchResults recResults similarResults tbl ext
          popularResults ts) := by
  set L := gatherCollected recResults similarResults tbl ext popularResults ts with hL
  obtain ⟨a, ha, b, hb, hab⟩ := hdist
  have hLlen : L.length ≤ 5 := by
    rw [hL]
    exact gatherCollected_length_le recResults similarResults tbl ext popularResults ts
  have hne : L ≠ [] := List.ne_nil_of_mem ha
  obtain ⟨h0, t, hLt⟩ := List.exists_cons_of_ne_nil hne
  have hc : ∃ c, c ∈ L ∧ c ≠ h0 := by
    by_cases hah : a = h0
    · exact ⟨b, hb, fun hbh => hab (hah.trans hbh.symm)⟩
    · exact ⟨a, ha, hah⟩
  obtain ⟨c, hcL, hch⟩ := hc
  have hsearch : ¬ searchResults.isEmpty = true := by
    simpa [List.isEmpty_iff] using hs
  have houtput : ∀ sh' : List Recommendation → List Recommendation,
      get_recommendations_for_movie sh' searchResults recResults similarResults tbl ext
        popularResults ts = (sh' L).take 5 := by
    intro sh'
    rw [get_recommendations_for_movie, if_neg hsearch]
  have hlen2 : (c :: L.erase c).length ≤ 5 := by
    rw [List.length_cons, List.length_erase_of_mem hcL]
    omega
  refine ⟨id, fun l => if l = L then c :: L.erase c else l, fun l => List.Perm.refl l, ?_, ?_, ?_⟩
  · intro l
    show (if l = L then c :: L.erase c else l).Perm l
    by_cases hl : l = L
    · rw [if_pos hl, hl]
      exact (List.perm_cons_erase hcL).symm
    · rw [if_neg hl]
  · rw [houtput, houtput, id_eq, if_pos rfl, List.take_of_length_le hLlen,
      List.take_of_length_le hlen2, hLt]
    intro hcontra
    have := (List.cons.injEq _ _ _ _).mp hcontra
    exact hch this.1.symm
  · rw [houtput, houtput, id_eq, if_pos rfl, List.take_of_length_le hLlen,
      List.take_of_length_le hlen2]
    exact List.perm_cons_erase hcL

/-- Witness for C7: three distinct Horror candidates are collected. -/
theorem c7_shuffle_nondeterminism_witness :
    ∃ sh₁ sh₂ : List Recommendation → List Recommendation,
      (∀ l, (sh₁ l).Perm l) ∧ (∀ l, (sh₂ l).Perm l) ∧
      get_recommendations_for_movie sh₁ [⟨0, "s", "", "", "", []⟩]
          [⟨1, "P", "", "", "", [27]⟩, ⟨2, "Q", "", "", "", [27]⟩, ⟨3, "R", "", "", "", [27]⟩]
          [] [(27, "Horror")] (fun _ => "") [] "0" ≠
        get_recommendations_for_movie sh₂ [⟨0, "s", "", "", "", []⟩]
          [⟨1, "P", "", "", "", [27]⟩, ⟨2, "Q", "", "", "", [27]⟩, ⟨3, "R", "", "", "", [27]⟩]
          [] [(27, "Horror")] (fun _ => "") [] "0" ∧
      (get_recommendations_for_movie sh₁ [⟨0, "s", "", "", "", []⟩]
          [⟨1, "P", "", "", "", [27]⟩, ⟨2, "Q", "", "", "", [27]⟩, ⟨3, "R", "", "", "", [27]⟩]
          [] [(27, "Horror")] (fun _ => "") [] "0").Perm
        (get_recommendations_for_movie sh₂ [⟨0, "s", "", "", "", []⟩]
          [⟨1, "P", "", "", "", [27]⟩, ⟨2, "Q", "", "", "", [27]⟩, ⟨3, "R", "", "", "", [27]⟩]
          [] [(27, "Horror")] (fun _ => "") [] "0") :=
  c7_shuffle_nondeterminism [⟨0, "s", "", "", "", []⟩]
    [⟨1, "P", "", "", "", [27]⟩, ⟨2, "Q", "", "", "", [27]⟩, ⟨3, "R", "", "", "", [27]⟩]
    [] [(27, "Horror")] (fun _ => "") [] "0" (by decide) (by decide)

/-- C10: every primary-stage record carries the `imdb_id` key, holding the
external-ids lookup of its own movie id (possibly empty); everything the
collection phase adds beyond the primary stage carries no `imdb_id` key; and
every record the gatherer returns carries the Amazon search link built from
its own title. -/
theorem c10_stage_fields (sh : List Recommendation → List Recommendation)
    (hsh : ∀ l, (sh l).Perm l)
    (searchResults recResults similarResults : List TMDbMovie) (tbl : List (Nat × String))
    (ext : Nat → String) (popularResults : List TMDbMovie) (ts : String) :
    (∀ r ∈ primaryLoop tbl ext ts ((recPool recResults similarResults).take 10) [],
        ∃ m, r = mkPrimaryRec tbl ext ts m ∧ r.imdb_id = some (ext m.id)) ∧
    (∃ new, gatherCollected recResults similarResults tbl ext popularResults ts =
        primaryLoop tbl ext ts ((recPool recResults similarResults).take 10) [] ++ new ∧
        ∀ r ∈ new, r.imdb_id = none) ∧
    (∀ r ∈ get_recommendations_for_movie sh searchResults recResults similarResults tbl ext
        popularResults ts, r.amazon_link = amazonLink r.title) := by
  have hprim : ∀ r ∈ primaryLoop tbl ext ts ((recPool recResults similarResults).take 10) [],
      ∃ m, r = mkPrimaryRec tbl ext ts m := by
    intro r hr
    rw [primaryLoop_closed] at hr
    obtain ⟨m, -, rfl⟩ := List.mem_map.mp hr
    exact ⟨m, rfl⟩
  have hcoll : ∀ r ∈ gatherCollected recResults similarResults tbl ext popularResults ts,
      r.amazon_link = amazonLink r.title := by
    intro r hr
    rw [gatherCollected] at hr
    split at hr
    · obtain ⟨new, heq, hsrc, -, -, -⟩ := fallbackLoop_spec tbl ts (popularResults.take 5)
        (primaryLoop tbl ext ts ((recPool recResults similarResults).take 10) [])
      rw [heq] at hr
      rcases List.mem_append.mp hr with hr | hr
      · obtain ⟨m, rfl⟩ := hprim r hr
        rfl
      · obtain ⟨m, -, rfl⟩ := hsrc r hr
        rfl
    · obtain ⟨m, rfl⟩ := hprim r hr
      rfl
  refine ⟨?_, ?_, ?_⟩
  · intro r hr
    obtain ⟨m, rfl⟩ := hprim r hr
    exact ⟨m, rfl, rfl⟩
  · rw [gatherCollected]
    split
    · obtain ⟨new, heq, -, himdb, -, -⟩ := fallbackLoop_spec tbl ts (popularResults.take 5)
        (primaryLoop tbl ext ts ((recPool recResults similarResults).take 10) [])
      exact ⟨new, heq, himdb⟩
    · exact ⟨[], by simp, by simp⟩
  · intro r hr
    rw [get_recommendations_for_movie] at hr
    split at hr
    · exact absurd hr (List.not_mem_nil r)
    · exact hcoll r ((hsh _).mem_iff.mp (List.take_subset _ _ hr))

/-- Witness for C10: a concrete primary-stage record carries its own
external id. -/
theorem c10_stage_fields_witness :
    ∃ m, mkPrimaryRec [(27, "Horror")] (fun i => if i = 2 then "tt2" else "") "7"
        ⟨2, "Scream", "1996-12-20", "o", "", [27]⟩ = mkPrimaryRec [(27, "Horror")]
        (fun i => if i = 2 then "tt2" else "") "7" m ∧
      (mkPrimaryRec [(27, "Horror")] (fun i => if i = 2 then "tt2" else "") "7"
        ⟨2, "Scream", "1996-12-20", "o", "", [27]⟩).imdb_id =
          some ((fun i => if i = 2 then "tt2" else "") m.id) :=
  (c10_stage_fields id (fun l => List.Perm.refl l) [⟨0, "s", "", "", "", []⟩]
    [⟨2, "Scream", "1996-12-20", "o", "", [27]⟩] [] [(27, "Horror")]
    (fun i => if i = 2 then "tt2" else "") [] "7").1
    (mkPrimaryRec [(27, "Horror")] (fun i => if i = 2 then "tt2" else "") "7"
      ⟨2, "Scream", "1996-12-20", "o", "", [27]⟩) (by decide)

theorem isPrefixOf_eq_true_iff (n : List Char) :
    ∀ h : List Char, n.isPrefixOf h = true ↔ ∃ t, h = n ++ t := by
  induction n with
  | nil =>
    intro h
    simp [List.isPrefixOf]
  | cons a as ih =>
    intro h
    cases h with
    | nil => simp [List.isPrefixOf]
    | cons b bs =>
      rw [show (a :: as).isPrefixOf (b :: bs) = ((a == b) && as.isPrefixOf bs) from rfl]
      simp only [Bool.and_eq_true, beq_iff_eq, ih]
      constructor
      · rintro ⟨rfl, t, rfl⟩
        exact ⟨t, rfl⟩
      · rintro ⟨t, ht⟩
        rw [List.cons_append] at ht
        injection ht with h1 h2
        exact ⟨h1.symm, t, h2⟩

theorem hasSubstr_eq_true_iff (n : List Char) :
    ∀ h : List Char, hasSubstr n h = true ↔ ∃ s t, h = s ++ n ++ t := by
  intro h
  induction h with
  | nil =>
    rw [hasSubstr]
    simp only [List.isEmpty_iff]
    constructor
    · intro hn
      exact ⟨[], [], by simp [hn]⟩
    · rintro ⟨s, t, hst⟩
      have h1 := List.append_eq_nil.mp hst.symm
      exact (List.append_eq_nil.mp h1.1).2
  | cons c rest ih =>
    rw [hasSubstr]
    simp only [Bool.or_eq_true, ih, isPrefixOf_eq_true_iff]
    constructor
    · rintro (⟨t, ht⟩ | ⟨s, t, ht⟩)
      · exact ⟨[], t, by simpa using ht⟩
      · exact ⟨c :: s, t, by simp [ht]⟩
    · rintro ⟨s, t, ht⟩
      cases s with
      | nil =>
        left
        exact ⟨t, by simpa using ht⟩
      | cons s0 s' =>
        right
        simp only [List.cons_append] at ht
        injection ht with h1 h2
        exact ⟨s', t, h2⟩

theorem looksLikeMovieQuery_iff (q : List Char) :
    looksLikeMovieQuery q = true ↔
      ((pyWords q).length < 5 ∨ ∃ k ∈ movieKeywords, ∃ s t, pyLower q = s ++ k ++ t) := by
  rw [looksLikeMovieQuery]
  simp only [Bool.or_eq_true, decide_eq_true_eq, List.any_eq_true, hasSubstr_eq_true_iff]

/-- C9: for a non-empty query, the handler attempts a movie-metadata lookup
exactly when the query has fewer than 5 words or its lowercasing contains one
of the keywords; the candidate title is the query with the first matching
leading phrase removed and the remainder stripped, or the query itself when
no leading phrase matches; failing queries go straight to the general
responder. -/
theorem c9_query_classification (q : List Char) (_hq : q ≠ []) :
    ((askOracleLookup q).isSome ↔
      ((pyWords q).length < 5 ∨ ∃ k ∈ movieKeywords, ∃ s t, pyLower q = s ++ k ++ t)) ∧
    (∀ ti, askOracleLookup q = some ti →
      ((∀ p ∈ titleLeadIns, p.isPrefixOf (pyLower q) = false) → ti = q) ∧
      (∀ p, titleLeadIns.find? (fun l => l.isPrefixOf (pyLower q)) = some p →
        ti = pyStripChars (q.drop p.length))) ∧
    (looksLikeMovieQuery q = false → askOracleLookup q = none) := by
  refine ⟨?_, ?_, ?_⟩
  · rw [← looksLikeMovieQuery_iff, askOracleLookup]
    by_cases hc : looksLikeMovieQuery q = true
    · simp [hc]
    · simp [hc]
  · intro ti hti
    rw [askOracleLookup] at hti
    by_cases hc : looksLikeMovieQuery q = true
    · rw [if_pos hc] at hti
      injection hti with hti
      subst hti
      constructor
      · intro hnone
        have hfind : titleLeadIns.find? (fun l => l.isPrefixOf (pyLower q)) = none :=
          List.find?_eq_none.mpr (fun x hx => by simp [hnone x hx])
        rw [extractPotentialTitle, hfind]
      · intro p hp
        rw [extractPotentialTitle, hp]
    · rw [if_neg hc] at hti
      exact absurd hti (by simp)
  · intro hc
    rw [askOracleLookup, if_neg (by simp [hc])]

/-- Witness for C9: a three-word query triggers the lookup. -/
theorem c9_query_classification_witness :
    (askOracleLookup ("The Shining movie".data)).isSome :=
  ((c9_query_classification ("The Shining movie".data) (by decide)).1).mpr (Or.inl (by decide))

end HorrorOracle
